import Mathlib

/-!
Shallow embedding of `src/main.py`, an EPUB image-reference validator.

Strings are Lean `String`s; the character-level helpers mirror the CPython
implementations of `posixpath.dirname/join/normpath` and
`urllib.parse.unquote` that the source calls.  The archive is modelled by the
outcomes the Python code can observe: the boolean result of
`zipfile.is_zipfile`, the outcome of `zipfile.ZipFile` plus `namelist`, and a
per-entry read-and-parse outcome for content documents.
-/

/-- Value of an ASCII hexadecimal digit, as accepted by the `_hextobyte`
table of `urllib.parse.unquote` (both letter cases). -/
def hexDigitVal (c : Char) : Option Nat :=
  if '0' ≤ c ∧ c ≤ '9' then some (c.toNat - '0'.toNat)
  else if 'a' ≤ c ∧ c ≤ 'f' then some (c.toNat - 'a'.toNat + 10)
  else if 'A' ≤ c ∧ c ≤ 'F' then some (c.toNat - 'A'.toNat + 10)
  else none

/-- Percent-decoding of `urllib.parse.unquote` at the byte level: each `%XX`
hex pair becomes the character with that code, a `%` not followed by a valid
hex pair stays literal, and decoded text is never rescanned.  (CPython's
recombination of several consecutive decoded bytes into one multi-byte UTF-8
code point is abstracted away — decoded bytes are identified with code
points, which agrees with CPython on all ASCII escapes.) -/
def unquoteList : List Char → List Char
  | '%' :: a :: b :: rest =>
    match hexDigitVal a, hexDigitVal b with
    | some ha, some hb => Char.ofNat (16 * ha + hb) :: unquoteList rest
    | _, _ => '%' :: unquoteList (a :: b :: rest)
  | c :: rest => c :: unquoteList rest
  | [] => []

/-- `urllib.parse.unquote` lifted to `String`. -/
def unquote (s : String) : String := String.mk (unquoteList s.data)

/-- CPython `str.split(sep)` for a one-character separator: the empty string
splits to `[""]`, and separators at either end produce empty pieces. -/
def splitOnChar (sep : Char) : List Char → List (List Char)
  | [] => [[]]
  | c :: rest =>
    match splitOnChar sep rest with
    | h :: t => if c = sep then [] :: h :: t else (c :: h) :: t
    | [] => if c = sep then [[], []] else [[c]]

/-- `"/".join(comps)`. -/
def joinWithSlash : List (List Char) → List Char
  | [] => []
  | [x] => x
  | x :: xs => x ++ '/' :: joinWithSlash xs

/-- `posixpath.dirname`: the part of the path up to the last `/`, with
trailing slashes stripped unless that head consists only of slashes. -/
def posixDirname (p : String) : String :=
  let head := (p.data.reverse.dropWhile (fun c => c ≠ '/')).reverse
  if head.any (fun c => c ≠ '/') then
    String.mk ((head.reverse.dropWhile (fun c => c = '/')).reverse)
  else
    String.mk head

/-- `posixpath.join` restricted to two arguments, as the source calls it:
an absolute second argument replaces the first, otherwise the two are glued
with a `/` unless the first is empty or already ends in `/`. -/
def posixJoin (a b : String) : String :=
  if b.data.head? = some '/' then b
  else if a.data = [] ∨ a.data.getLast? = some '/' then String.mk (a.data ++ b.data)
  else String.mk (a.data ++ '/' :: b.data)

/-- Component loop of `posixpath.normpath`: drop empty and `.` components,
let `..` cancel a previous real component, and keep leading `..` only for
relative paths. -/
def normpathComps (initialSlashes : Nat) : List (List Char) → List (List Char) → List (List Char)
  | acc, [] => acc
  | acc, comp :: rest =>
    if comp = [] ∨ comp = ['.'] then normpathComps initialSlashes acc rest
    else if comp ≠ ['.', '.'] ∨ (initialSlashes = 0 ∧ acc = []) ∨ acc.getLast? = some ['.', '.'] then
      normpathComps initialSlashes (acc ++ [comp]) rest
    else
      normpathComps initialSlashes acc.dropLast rest

/-- `posixpath.normpath` (the pure-Python reference implementation): collapse
duplicate slashes and `.`/`..` segments, preserving one or two leading
slashes. -/
def posixNormpath (p : String) : String :=
  if p.data = [] then "."
  else
    let initialSlashes : Nat :=
      if p.data.take 2 = ['/', '/'] ∧ p.data.take 3 ≠ ['/', '/', '/'] then 2
      else if p.data.head? = some '/' then 1
      else 0
    let comps := normpathComps initialSlashes [] (splitOnChar '/' p.data)
    let path := List.replicate initialSlashes '/' ++ joinWithSlash comps
    if path = [] then "." else String.mk path

/-- An `<img>` element as the scanner sees it: its optional `src` attribute. -/
structure ImgTag where
  src : Option String
deriving DecidableEq

/-- An `<image>` element: its optional `xlink:href` and `href` attributes. -/
structure ImageTag where
  xlinkHref : Option String
  href : Option String
deriving DecidableEq

/-- Result of successfully parsing one content document with BeautifulSoup:
its `<img>` elements and its `<image>` elements, each in document order. -/
structure ParsedDoc where
  imgs : List ImgTag
  images : List ImageTag
deriving DecidableEq

/-- Python truthiness filter on an optional attribute value: absent
attributes (`None`) and the empty string are falsy. -/
def truthyOpt : Option String → Option String
  | some s => if s = "" then none else some s
  | none => none

/-- Python `a or b` on optional attribute values
(`image.get('xlink:href') or image.get('href')`). -/
def pyOr (a b : Option String) : Option String :=
  match a with
  | some s => if s = "" then b else some s
  | none => b

/-- `src.startswith(('http:', 'https:', 'data:', 'mailto:'))`. -/
def isExternal (src : String) : Bool :=
  "http:".data.isPrefixOf src.data || "https:".data.isPrefixOf src.data ||
    "data:".data.isPrefixOf src.data || "mailto:".data.isPrefixOf src.data

/-- The ASCII apostrophe used by the missing-resource message format. -/
def quoteChar : Char := Char.ofNat 39

/-- The message of line 93 of the source,
`Missing: <q><target><q> (referenced in <q><context><q>)` where `<q>` is the
ASCII apostrophe. -/
def mkMissing (target context_file : String) : String :=
  "Missing: " ++ String.singleton quoteChar ++ target ++ String.singleton quoteChar ++
    " (referenced in " ++ String.singleton quoteChar ++ context_file ++
    String.singleton quoteChar ++ ")"

/-- `EpubValidator._verify_resource`: skip external schemes, URL-decode,
resolve against the referencing document's directory, and append one
missing-resource message to the accumulated list when the resolved target is
not an entry of the archive. -/
def verifyResource (src : String) (base_dir : String) (all_files : List String)
    (context_file : String) (missing : List String) : List String :=
  if isExternal src then missing
  else
    let target := posixNormpath (posixJoin base_dir (unquote src))
    if all_files.contains target then missing
    else missing ++ [mkMissing target context_file]

/-- The resolved target path of a reference against a base directory:
normalize(join(base, urldecode(src))). -/
def resolveTarget (src base_dir : String) : String :=
  posixNormpath (posixJoin base_dir (unquote src))

/-- Specification-side pure contribution of one `_verify_resource` call, a
function of the (reference, base directory, entry set) triple and the
referencing document alone. -/
def verifyDelta (src base_dir : String) (all_files : List String)
    (context_file : String) : List String :=
  if isExternal src then []
  else if all_files.contains (resolveTarget src base_dir) then []
  else [mkMissing (resolveTarget src base_dir) context_file]

/-- `filename.lower().endswith(('.html', '.xhtml', '.htm'))`; the lowering is
ASCII, which agrees with CPython on ASCII entry names. -/
def isContentDoc (filename : String) : Bool :=
  let l := filename.data.map Char.toLower
  ".html".data.isSuffixOf l || ".xhtml".data.isSuffixOf l || ".htm".data.isSuffixOf l

/-- Body of the `<img>` loop of `_scan_file_for_images` (lines 63-66): a
truthy `src` goes through `verifyResource`, anything else is skipped. -/
def imgStep (base_dir : String) (all_files : List String) (html_filename : String)
    (m : List String) (img : ImgTag) : List String :=
  match truthyOpt img.src with
  | some src => verifyResource src base_dir all_files html_filename m
  | none => m

/-- Body of the `<image>` loop of `_scan_file_for_images` (lines 69-73): a
truthy `xlink:href or href` goes through `verifyResource`. -/
def imageStep (base_dir : String) (all_files : List String) (html_filename : String)
    (m : List String) (image : ImageTag) : List String :=
  match truthyOpt (pyOr image.xlinkHref image.href) with
  | some href => verifyResource href base_dir all_files html_filename m
  | none => m

/-- `EpubValidator._scan_file_for_images`: when reading or parsing the
document raises, the broad handler of lines 78-79 leaves the accumulated list
unchanged; on success every truthy `<img src>` and then every truthy
`<image xlink:href or href>` goes through `verifyResource`. -/
def scanFileForImages (html_filename : String) (parsed : Except Unit ParsedDoc)
    (all_files : List String) (missing : List String) : List String :=
  match parsed with
  | .error _ => missing
  | .ok soup =>
    let base_dir := posixDirname html_filename
    soup.images.foldl (imageStep base_dir all_files html_filename)
      (soup.imgs.foldl (imgStep base_dir all_files html_filename) missing)

/-- Body of the entry loop of `_check_content_files` (lines 49-51). -/
def checkStep (content : String → Except Unit ParsedDoc) (all_files : List String)
    (m : List String) (filename : String) : List String :=
  if isContentDoc filename then scanFileForImages filename (content filename) all_files m
  else m

/-- `EpubValidator._check_content_files`, with the iteration order over the
entry set made explicit and separated from the membership set. -/
def checkContentFilesFrom (iter : List String) (content : String → Except Unit ParsedDoc)
    (all_files : List String) (missing : List String) : List String :=
  iter.foldl (checkStep content all_files) missing

/-- `EpubValidator._check_content_files`: every entry named like a content
document is scanned, with the full entry set as the membership namespace. -/
def checkContentFiles (entries : List String) (content : String → Except Unit ParsedDoc) :
    List String :=
  checkContentFilesFrom entries content entries []

/-- Outcome of `zipfile.ZipFile(path)` followed by `namelist()`:
`ok entries content` when open and enumeration both succeed (`entries` the
enumerated entry names, `content` each entry's read-and-parse outcome),
`badZipFile` when `zipfile.BadZipFile` is raised, and `otherError` for any
other exception raised before the per-document scan. -/
inductive OpenOutcome where
  | badZipFile : OpenOutcome
  | otherError : OpenOutcome
  | ok : List String → (String → Except Unit ParsedDoc) → OpenOutcome

/-- One archive as `EpubValidator.validate` observes it: the boolean result
of `zipfile.is_zipfile` and the outcome of opening plus enumerating it. -/
structure RawArchive where
  is_zipfile : Bool
  openOutcome : OpenOutcome

/-- End state of one `EpubValidator` run: the `is_valid_zip` flag, the
`missing_resources` list, and the boolean returned by `validate`. -/
structure ValidationResult where
  is_valid_zip : Bool
  missing_resources : List String
  result : Bool
deriving DecidableEq

/-- `EpubValidator.validate`. -/
def validate (a : RawArchive) : ValidationResult :=
  if a.is_zipfile = false then ⟨false, [], false⟩
  else
    match a.openOutcome with
    | .badZipFile => ⟨false, [], false⟩
    | .otherError => ⟨true, [], false⟩
    | .ok entries content =>
      let missing := checkContentFiles entries content
      ⟨true, missing, missing.isEmpty⟩

/-- Concatenated pure contributions of a list of items. -/
def deltaConcat {α : Type} (g : α → List String) : List α → List String
  | [] => []
  | x :: xs => g x ++ deltaConcat g xs

/-- Pure contribution of one `<img>` element. -/
def imgDelta (base_dir : String) (all_files : List String) (html_filename : String)
    (img : ImgTag) : List String :=
  match truthyOpt img.src with
  | some src => verifyDelta src base_dir all_files html_filename
  | none => []

/-- Pure contribution of one `<image>` element. -/
def imageDelta (base_dir : String) (all_files : List String) (html_filename : String)
    (image : ImageTag) : List String :=
  match truthyOpt (pyOr image.xlinkHref image.href) with
  | some href => verifyDelta href base_dir all_files html_filename
  | none => []

/-- Specification-side pure contribution of scanning one content document. -/
def scanDelta (html_filename : String) (parsed : Except Unit ParsedDoc)
    (all_files : List String) : List String :=
  match parsed with
  | .error _ => []
  | .ok soup =>
    let base_dir := posixDirname html_filename
    deltaConcat (imgDelta base_dir all_files html_filename) soup.imgs ++
      deltaConcat (imageDelta base_dir all_files html_filename) soup.images

/-- Pure contribution of one entry of the content-file pass. -/
def checkItemDelta (content : String → Except Unit ParsedDoc) (all_files : List String)
    (filename : String) : List String :=
  if isContentDoc filename then scanDelta filename (content filename) all_files else []

/-- Specification-side pure contribution of the whole content-file pass. -/
def checkDelta (iter : List String) (content : String → Except Unit ParsedDoc)
    (all_files : List String) : List String :=
  deltaConcat (checkItemDelta content all_files) iter

/-- State of `EpubSorter._isolate_broken_files`: the names present in the
`broken/` directory and the processed files partitioned by what happened to
each one. -/
structure IsoState where
  dest : List String
  skipped : List String
  failed : List String
  moved : List String
deriving DecidableEq

/-- One iteration of the move loop (lines 145-156 of the source): skip with a
warning when the destination name already exists, otherwise attempt the move,
which may fail; only a successful move adds the name to the destination. -/
def isolateStep (moveFails : String → Bool) (st : IsoState) (name : String) : IsoState :=
  if st.dest.contains name then { st with skipped := st.skipped ++ [name] }
  else if moveFails name then { st with failed := st.failed ++ [name] }
  else { st with moved := st.moved ++ [name], dest := st.dest ++ [name] }

/-- `EpubSorter._isolate_broken_files` over the names of the broken list,
given the initial contents of `broken/` and a move-failure oracle. -/
def isolateBrokenFiles (broken : List String) (initialDest : List String)
    (moveFails : String → Bool) : IsoState :=
  broken.foldl (isolateStep moveFails) ⟨initialDest, [], [], []⟩

/-- The counts printed by `EpubSorter._print_summary`. -/
structure SummaryCounts where
  total : Nat
  valid : Nat
  broken : Nat
deriving DecidableEq

/-- `EpubSorter._print_summary`: all counts are lengths of the partition
lists. -/
def printSummary (validList brokenList : List String) : SummaryCounts :=
  ⟨validList.length + brokenList.length, validList.length, brokenList.length⟩

/-- The tail of `EpubSorter.process` after classification (lines 133-136):
optionally isolate the broken files, then print the summary from the
partition lists, which the isolation loop reads but never modifies. -/
def processAfterClassify (validList brokenList : List String) (isolate : Bool)
    (initialDest : List String) (moveFails : String → Bool) : IsoState × SummaryCounts :=
  let st := if isolate ∧ brokenList ≠ [] then isolateBrokenFiles brokenList initialDest moveFails
    else ⟨initialDest, [], [], []⟩
  (st, printSummary validList brokenList)

/-- A concrete content map for concrete evaluations: `a.xhtml` fails to read
or parse, `b.xhtml` holds one `<img src="x.png">`, everything else is empty. -/
def sampleContent : String → Except Unit ParsedDoc := fun f =>
  if f = "a.xhtml" then Except.error ()
  else if f = "b.xhtml" then Except.ok ⟨[⟨some "x.png"⟩], []⟩
  else Except.ok ⟨[], []⟩

/-- A concrete archive whose document `a.xhtml` cannot be read or parsed and
whose only referenced image `x.png` is present. -/
def sampleArchive : RawArchive :=
  ⟨true, OpenOutcome.ok ["a.xhtml", "b.xhtml", "x.png"] sampleContent⟩

/-- A content map every document of which references a missing `nope.png`. -/
def missingContent : String → Except Unit ParsedDoc :=
  fun _ => Except.ok ⟨[⟨some "nope.png"⟩], []⟩

/-- A concrete move-failure oracle: moving `b.epub` fails. -/
def sampleMoveFails : String → Bool := fun n => n == "b.epub"

example : posixDirname "OEBPS/chapter1.xhtml" = "OEBPS" := by decide
example : posixDirname "a.xhtml" = "" := by decide
example : posixDirname "a//b" = "a" := by decide
example : posixNormpath (posixJoin "OEBPS" "../images/fig1.png") = "images/fig1.png" := by decide
example : posixNormpath "http://host/img.png" = "http:/host/img.png" := by decide
example : posixNormpath "" = "." := by decide
example : posixNormpath "a/b/../c" = "a/c" := by decide
example : unquote "cover%20page.jpg" = "cover page.jpg" := by decide
example : unquote "http%3A//host/img.png" = "http://host/img.png" := by decide
example : unquote "%%20" = "% " := by decide
example : unquote "a%2" = "a%2" := by decide

theorem verifyResource_delta (src base_dir : String) (all_files : List String)
    (context_file : String) (missing : List String) :
    verifyResource src base_dir all_files context_file missing =
      missing ++ verifyDelta src base_dir all_files context_file := by
  simp only [verifyResource, verifyDelta, resolveTarget]
  by_cases hext : isExternal src
  · simp [hext]
  · by_cases hc : posixNormpath (posixJoin base_dir (unquote src)) ∈ all_files
    · simp [hext, hc]
    · simp [hext, hc]

theorem foldl_append_delta {α : Type} (f : List String → α → List String)
    (g : α → List String) (hf : ∀ m x, f m x = m ++ g x) :
    ∀ (l : List α) (m : List String), l.foldl f m = m ++ deltaConcat g l := by
  intro l
  induction l with
  | nil => intro m; simp [deltaConcat]
  | cons x xs ih =>
    intro m
    rw [List.foldl_cons, hf, ih, deltaConcat, List.append_assoc]

theorem imgStep_delta (base_dir : String) (all_files : List String) (html : String)
    (m : List String) (img : ImgTag) :
    imgStep base_dir all_files html m img = m ++ imgDelta base_dir all_files html img := by
  simp only [imgStep, imgDelta]
  cases truthyOpt img.src with
  | some s => exact verifyResource_delta ..
  | none => simp

theorem imageStep_delta (base_dir : String) (all_files : List String) (html : String)
    (m : List String) (image : ImageTag) :
    imageStep base_dir all_files html m image = m ++ imageDelta base_dir all_files html image := by
  simp only [imageStep, imageDelta]
  cases truthyOpt (pyOr image.xlinkHref image.href) with
  | some s => exact verifyResource_delta ..
  | none => simp

theorem scanFileForImages_delta (h : String) (pr : Except Unit ParsedDoc)
    (fs m : List String) : scanFileForImages h pr fs m = m ++ scanDelta h pr fs := by
  cases pr with
  | error e => simp [scanFileForImages, scanDelta]
  | ok soup =>
    simp only [scanFileForImages, scanDelta]
    rw [foldl_append_delta _ _ (imgStep_delta (posixDirname h) fs h),
      foldl_append_delta _ _ (imageStep_delta (posixDirname h) fs h), List.append_assoc]

theorem checkStep_delta (content : String → Except Unit ParsedDoc) (fs m : List String)
    (f : String) : checkStep content fs m f = m ++ checkItemDelta content fs f := by
  simp only [checkStep, checkItemDelta]
  by_cases hf : isContentDoc f
  · simp [hf, scanFileForImages_delta]
  · simp [hf]

theorem checkContentFilesFrom_delta (iter : List String)
    (content : String → Except Unit ParsedDoc) (fs m : List String) :
    checkContentFilesFrom iter content fs m = m ++ checkDelta iter content fs := by
  simp only [checkContentFilesFrom, checkDelta]
  exact foldl_append_delta _ _ (checkStep_delta content fs) iter m

theorem deltaConcat_eq_nil {α : Type} (g : α → List String) (l : List α)
    (hg : ∀ x ∈ l, g x = []) : deltaConcat g l = [] := by
  induction l with
  | nil => rfl
  | cons x xs ih =>
    rw [deltaConcat, hg x (by simp), ih (fun y hy => hg y (by simp [hy]))]
    rfl

theorem deltaConcat_filter_ne {α : Type} [DecidableEq α] (g : α → List String) (d : α)
    (hd : g d = []) (l : List α) :
    deltaConcat g l = deltaConcat g (l.filter (fun x => x ≠ d)) := by
  induction l with
  | nil => rfl
  | cons x xs ih =>
    by_cases hx : x = d
    · subst hx
      simp only [List.filter_cons, decide_not]
      simp [deltaConcat, hd, ih]
    · simp only [List.filter_cons]
      simp [hx, deltaConcat, ih]

theorem deltaConcat_perm {α : Type} (g : α → List String) {l₁ l₂ : List α}
    (h : l₁.Perm l₂) : (deltaConcat g l₁).Perm (deltaConcat g l₂) := by
  induction h with
  | nil => exact List.Perm.refl _
  | cons x _ ih => exact ih.append_left (g x)
  | swap x y l =>
    simp only [deltaConcat, ← List.append_assoc]
    exact List.perm_append_comm.append_right _
  | trans _ _ ih₁ ih₂ => exact ih₁.trans ih₂

theorem iso_step_dest_mono (f : String → Bool) (st : IsoState) (x : String) :
    st.dest ⊆ (isolateStep f st x).dest := by
  intro n hn
  unfold isolateStep
  split_ifs <;> simp_all

theorem iso_step_skipped_mono (f : String → Bool) (st : IsoState) (x : String) :
    st.skipped ⊆ (isolateStep f st x).skipped := by
  intro n hn
  unfold isolateStep
  split_ifs <;> simp_all

theorem iso_foldl_dest_mono (f : String → Bool) :
    ∀ (l : List String) (st : IsoState), st.dest ⊆ (l.foldl (isolateStep f) st).dest := by
  intro l
  induction l with
  | nil => intro st; exact fun n hn => hn
  | cons x xs ih =>
    intro st
    exact fun n hn => ih (isolateStep f st x) (iso_step_dest_mono f st x hn)

theorem iso_foldl_skipped_mono (f : String → Bool) :
    ∀ (l : List String) (st : IsoState), st.skipped ⊆ (l.foldl (isolateStep f) st).skipped := by
  intro l
  induction l with
  | nil => intro st; exact fun n hn => hn
  | cons x xs ih =>
    intro st
    exact fun n hn => ih (isolateStep f st x) (iso_step_skipped_mono f st x hn)

theorem iso_step_count (f : String → Bool) (st : IsoState) (x : String) :
    (isolateStep f st x).skipped.length + (isolateStep f st x).failed.length +
        (isolateStep f st x).moved.length =
      st.skipped.length + st.failed.length + st.moved.length + 1 := by
  unfold isolateStep
  split_ifs <;> simp <;> omega

theorem iso_foldl_count (f : String → Bool) :
    ∀ (l : List String) (st : IsoState),
      (l.foldl (isolateStep f) st).skipped.length + (l.foldl (isolateStep f) st).failed.length +
          (l.foldl (isolateStep f) st).moved.length =
        st.skipped.length + st.failed.length + st.moved.length + l.length := by
  intro l
  induction l with
  | nil => intro st; simp
  | cons x xs ih =>
    intro st
    rw [List.foldl_cons, ih, iso_step_count]
    simp
    omega

theorem iso_step_dest_not_moved (f : String → Bool) (st : IsoState) (x n : String)
    (h1 : n ∈ st.dest) (h2 : n ∉ st.moved) :
    n ∈ (isolateStep f st x).dest ∧ n ∉ (isolateStep f st x).moved := by
  unfold isolateStep
  split_ifs with hc hf
  · exact ⟨h1, h2⟩
  · exact ⟨h1, h2⟩
  · refine ⟨by simp [h1], ?_⟩
    simp only [List.mem_append, List.mem_singleton]
    rintro (hm | hx)
    · exact h2 hm
    · subst hx
      exact hc (List.elem_iff.mpr h1)

theorem iso_foldl_dest_not_moved (f : String → Bool) :
    ∀ (l : List String) (st : IsoState) (n : String), n ∈ st.dest → n ∉ st.moved →
      n ∈ (l.foldl (isolateStep f) st).dest ∧ n ∉ (l.foldl (isolateStep f) st).moved := by
  intro l
  induction l with
  | nil => intro st n h1 h2; exact ⟨h1, h2⟩
  | cons x xs ih =>
    intro st n h1 h2
    obtain ⟨h1', h2'⟩ := iso_step_dest_not_moved f st x n h1 h2
    exact ih (isolateStep f st x) n h1' h2'

theorem iso_foldl_skip_mem (f : String → Bool) :
    ∀ (l : List String) (st : IsoState) (n : String), n ∈ l → n ∈ st.dest →
      n ∈ (l.foldl (isolateStep f) st).skipped := by
  intro l
  induction l with
  | nil => intro st n hn; simp at hn
  | cons x xs ih =>
    intro st n hn hd
    rcases List.mem_cons.mp hn with hx | hxs
    · subst hx
      have hstep : n ∈ (isolateStep f st n).skipped := by
        unfold isolateStep
        rw [if_pos (List.elem_iff.mpr hd)]
        simp
      exact iso_foldl_skipped_mono f xs (isolateStep f st n) hstep
    · exact ih (isolateStep f st x) n hxs (iso_step_dest_mono f st x hd)

theorem iso_step_nodup (f : String → Bool) (st : IsoState) (x : String)
    (h : st.dest.Nodup) : (isolateStep f st x).dest.Nodup := by
  unfold isolateStep
  split_ifs with hc hf
  · exact h
  · exact h
  · simp only [List.nodup_append, List.nodup_singleton, true_and]
    refine ⟨h, ?_⟩
    intro a ha hax
    simp only [List.mem_singleton] at hax
    subst hax
    exact hc (List.elem_iff.mpr ha)

theorem iso_foldl_nodup (f : String → Bool) :
    ∀ (l : List String) (st : IsoState), st.dest.Nodup → (l.foldl (isolateStep f) st).dest.Nodup := by
  intro l
  induction l with
  | nil => intro st h; exact h
  | cons x xs ih =>
    intro st h
    exact ih (isolateStep f st x) (iso_step_nodup f st x h)

/-- C1: `validate` returns true exactly when the archive opened successfully
as a zip container (the `is_zipfile` check passed and open plus entry
enumeration raised nothing) and the accumulated missing-resource list is
empty. -/
theorem c1_valid_iff_open_and_no_missing (a : RawArchive) :
    (validate a).result = true ↔
      ((a.is_zipfile = true ∧
          ∃ entries content, a.openOutcome = OpenOutcome.ok entries content) ∧
        (validate a).missing_resources = []) := by
  obtain ⟨z, o⟩ := a
  cases z
  · simp [validate]
  · cases o with
    | badZipFile => simp [validate]
    | otherError => simp [validate]
    | ok e c => simp [validate, List.isEmpty_iff]

/-- C5: a file rejected as not a zip (and likewise one whose open raises
BadZipFile) yields `is_valid_zip = false`, an empty missing list and a false
result, independently of what the archive's entries and documents would have
contained. -/
theorem c5_invalid_zip_result (a : RawArchive)
    (h : a.is_zipfile = false ∨ a.openOutcome = OpenOutcome.badZipFile) :
    validate a = ⟨false, [], false⟩ := by
  obtain ⟨z, o⟩ := a
  rcases h with h | h
  · simp only at h
    subst h
    rfl
  · simp only at h
    subst h
    cases z <;> rfl

/-- C5 witness: the zip check fails on an archive whose documents reference a
missing image; the result is still reported with no missing detail. -/
theorem c5_invalid_zip_result_witness :
    validate ⟨false, OpenOutcome.ok ["chapter1.xhtml"] missingContent⟩ = ⟨false, [], false⟩ :=
  c5_invalid_zip_result _ (Or.inl rfl)

/-- C6 counterexample: in `sampleArchive` the document `a.xhtml` raises on
read, yet `validate` returns true with an empty missing list — the claim that
such an error aborts validation and makes the archive reported invalid fails
at this input. -/
theorem c6_counterexample :
    sampleContent "a.xhtml" = Except.error () ∧
    sampleArchive.openOutcome =
      OpenOutcome.ok ["a.xhtml", "b.xhtml", "x.png"] sampleContent ∧
    validate sampleArchive = ⟨true, [], true⟩ :=
  ⟨rfl, rfl, by decide⟩

/-- C6 amended: an unexpected error in the open/enumeration phase aborts
validation and reports the archive invalid with no missing-resource detail,
while an error while reading or parsing an individual content document is
caught locally and leaves the accumulated missing list unchanged. -/
theorem c6_open_error_aborts (a : RawArchive) (hz : a.is_zipfile = true)
    (ho : a.openOutcome = OpenOutcome.otherError) :
    validate a = ⟨true, [], false⟩ ∧
    ∀ (d : String) (all_files m : List String),
      scanFileForImages d (Except.error ()) all_files m = m := by
  refine ⟨?_, fun d all_files m => rfl⟩
  obtain ⟨z, o⟩ := a
  simp only at hz ho
  subst hz
  subst ho
  rfl

/-- C6 amended witness. -/
theorem c6_open_error_aborts_witness :
    validate ⟨true, OpenOutcome.otherError⟩ = ⟨true, [], false⟩ ∧
    scanFileForImages "a.xhtml" (Except.error ()) ["a.xhtml"] ["keep"] = ["keep"] :=
  ⟨(c6_open_error_aborts ⟨true, OpenOutcome.otherError⟩ rfl rfl).1,
    (c6_open_error_aborts ⟨true, OpenOutcome.otherError⟩ rfl rfl).2 "a.xhtml" ["a.xhtml"] ["keep"]⟩

/-- C7: a document whose read or parse fails contributes nothing to the
missing list, the pass over the entries behaves exactly as if that document
were dropped from the iteration, and when every other content document's
references resolve the archive is still reported valid. -/
theorem c7_parse_failure_recovered (entries : List String)
    (content : String → Except Unit ParsedDoc) (d : String)
    (hd : content d = Except.error ()) :
    (∀ (all_files m : List String), scanFileForImages d (content d) all_files m = m) ∧
    checkContentFiles entries content =
      checkContentFilesFrom (entries.filter (fun f => f ≠ d)) content entries [] ∧
    ((∀ f ∈ entries, isContentDoc f = true → f ≠ d → scanDelta f (content f) entries = []) →
      (validate ⟨true, OpenOutcome.ok entries content⟩).result = true) := by
  have hzero : checkItemDelta content entries d = [] := by
    unfold checkItemDelta
    rw [hd]
    by_cases hcd : isContentDoc d
    · simp [hcd, scanDelta]
    · simp [hcd]
  refine ⟨fun all_files m => by rw [hd]; rfl, ?_, ?_⟩
  · rw [checkContentFiles, checkContentFilesFrom_delta, checkContentFilesFrom_delta]
    unfold checkDelta
    exact congrArg _ (deltaConcat_filter_ne _ d hzero entries)
  · intro hothers
    have : checkContentFiles entries content = [] := by
      rw [checkContentFiles, checkContentFilesFrom_delta, List.nil_append]
      refine deltaConcat_eq_nil _ _ (fun f hf => ?_)
      unfold checkItemDelta
      by_cases hcf : isContentDoc f
      · by_cases hfd : f = d
        · subst hfd
          rw [hd]
          simp [hcf, scanDelta]
        · simp [hcf, hothers f hf hcf hfd]
      · simp [hcf]
    simp [validate, this]

/-- C7 witness: in `sampleArchive` the failing `a.xhtml` is skipped, the pass
continues with the other entries, and the archive is reported valid. -/
theorem c7_parse_failure_recovered_witness :
    checkContentFiles ["a.xhtml", "b.xhtml", "x.png"] sampleContent =
      checkContentFilesFrom
        ((["a.xhtml", "b.xhtml", "x.png"] : List String).filter (fun f => f ≠ "a.xhtml"))
        sampleContent ["a.xhtml", "b.xhtml", "x.png"] [] ∧
    (validate ⟨true, OpenOutcome.ok ["a.xhtml", "b.xhtml", "x.png"] sampleContent⟩).result = true :=
  ⟨(c7_parse_failure_recovered _ sampleContent "a.xhtml" rfl).2.1,
    (c7_parse_failure_recovered _ sampleContent "a.xhtml" rfl).2.2 (by decide)⟩

/-- C2: for every non-external reference the target checked by
`verifyResource` is normalize(join(base, urldecode(src))) — percent-escapes
are decoded first, the result joined to the document's directory and then
normalized — and a document at OEBPS/chapter1.xhtml referencing
../images/fig1.png resolves to images/fig1.png. -/
theorem c2_resolution_formula (src base_dir : String) (all_files : List String)
    (context_file : String) (missing : List String) (hext : isExternal src = false) :
    (verifyResource src base_dir all_files context_file missing =
      if all_files.contains (posixNormpath (posixJoin base_dir (unquote src))) then missing
      else missing ++ [mkMissing (posixNormpath (posixJoin base_dir (unquote src))) context_file]) ∧
    posixDirname "OEBPS/chapter1.xhtml" = "OEBPS" ∧
    resolveTarget "../images/fig1.png" (posixDirname "OEBPS/chapter1.xhtml") = "images/fig1.png" := by
  refine ⟨?_, by decide, by decide⟩
  simp [verifyResource, hext]

/-- C2 witness. -/
theorem c2_resolution_formula_witness :
    isExternal "../images/fig1.png" = false ∧
    (verifyResource "../images/fig1.png" "OEBPS" ["images/fig1.png"] "OEBPS/chapter1.xhtml" [] =
      if (["images/fig1.png"] : List String).contains
          (posixNormpath (posixJoin "OEBPS" (unquote "../images/fig1.png"))) then ([] : List String)
      else [] ++ [mkMissing (posixNormpath (posixJoin "OEBPS" (unquote "../images/fig1.png")))
        "OEBPS/chapter1.xhtml"]) :=
  ⟨by decide, (c2_resolution_formula "../images/fig1.png" "OEBPS" ["images/fig1.png"]
    "OEBPS/chapter1.xhtml" [] (by decide)).1⟩

/-- C3: a reference starting with http:, https:, data: or mailto: is skipped:
`verifyResource` leaves the missing list unchanged, whatever the entry set
holds. -/
theorem c3_external_never_missing (src base_dir : String) (all_files : List String)
    (context_file : String) (missing : List String)
    (h : "http:".data.isPrefixOf src.data = true ∨ "https:".data.isPrefixOf src.data = true ∨
      "data:".data.isPrefixOf src.data = true ∨ "mailto:".data.isPrefixOf src.data = true) :
    verifyResource src base_dir all_files context_file missing = missing := by
  have hext : isExternal src = true := by
    rcases h with h | h | h | h <;> simp [isExternal, h]
  simp [verifyResource, hext]

/-- C3 witness: the entry set even holds a same-named path; the reference is
still skipped. -/
theorem c3_external_never_missing_witness :
    verifyResource "http://example.com/img.png" "OEBPS"
      ["http://example.com/img.png", "img.png"] "chapter1.xhtml" [] = [] :=
  c3_external_never_missing "http://example.com/img.png" "OEBPS"
    ["http://example.com/img.png", "img.png"] "chapter1.xhtml" [] (Or.inl (by decide))

/-- C4: each `verifyResource` call appends a contribution that is a pure
function of the (reference, document directory, entry set) triple and the
referencing document, independent of the accumulated state — so of the order
in which earlier documents and tags were visited — and scanning the entries
in any other order permutes the resulting missing list. -/
theorem c4_resolution_pure :
    (∀ (src base_dir : String) (all_files : List String) (context_file : String)
        (m₁ m₂ : List String),
      verifyResource src base_dir all_files context_file m₁ =
          m₁ ++ verifyDelta src base_dir all_files context_file ∧
        verifyResource src base_dir all_files context_file m₂ =
          m₂ ++ verifyDelta src base_dir all_files context_file) ∧
    (∀ (iter₁ iter₂ : List String) (content : String → Except Unit ParsedDoc)
        (all_files : List String), iter₁.Perm iter₂ →
      (checkDelta iter₁ content all_files).Perm (checkDelta iter₂ content all_files)) :=
  ⟨fun src base_dir all_files context_file m₁ m₂ =>
    ⟨verifyResource_delta src base_dir all_files context_file m₁,
      verifyResource_delta src base_dir all_files context_file m₂⟩,
    fun _ _ content all_files h => deltaConcat_perm (checkItemDelta content all_files) h⟩

/-- C4 witness: two visit orders of the same entries. -/
theorem c4_resolution_pure_witness :
    (verifyResource "pic.jpg" "" ["pic.jpg"] "chapter1.xhtml" ["x"] =
      ["x"] ++ verifyDelta "pic.jpg" "" ["pic.jpg"] "chapter1.xhtml") ∧
    (checkDelta ["a.xhtml", "b.xhtml"] sampleContent ["a.xhtml", "b.xhtml"]).Perm
      (checkDelta ["b.xhtml", "a.xhtml"] sampleContent ["a.xhtml", "b.xhtml"]) :=
  ⟨(c4_resolution_pure.1 "pic.jpg" "" ["pic.jpg"] "chapter1.xhtml" ["x"] []).1,
    c4_resolution_pure.2 ["a.xhtml", "b.xhtml"] ["b.xhtml", "a.xhtml"] sampleContent
      ["a.xhtml", "b.xhtml"] (List.Perm.swap _ _ _)⟩

/-- C8: a verification whose resolved target is absent from the entry set
appends exactly one description of the Missing/referenced-in shape; a
document chapter1.xhtml with img src pic.jpg and no pic.jpg entry yields
exactly that single message, whose character sequence is spelled out. -/
theorem c8_missing_message (src base_dir : String) (all_files : List String)
    (context_file : String) (missing : List String) (hext : isExternal src = false)
    (habs : all_files.contains (resolveTarget src base_dir) = false) :
    (verifyResource src base_dir all_files context_file missing =
      missing ++ [mkMissing (resolveTarget src base_dir) context_file]) ∧
    scanFileForImages "chapter1.xhtml" (Except.ok ⟨[⟨some "pic.jpg"⟩], []⟩)
      ["chapter1.xhtml", "cover.jpg"] [] = [mkMissing "pic.jpg" "chapter1.xhtml"] ∧
    (mkMissing "pic.jpg" "chapter1.xhtml").data =
      "Missing: ".data ++ quoteChar :: "pic.jpg".data ++ quoteChar ::
        " (referenced in ".data ++ quoteChar :: "chapter1.xhtml".data ++ [quoteChar, ')'] := by
  refine ⟨?_, by decide, by decide⟩
  have habs' : resolveTarget src base_dir ∉ all_files := by simpa using habs
  rw [verifyResource_delta]
  unfold verifyDelta
  simp [hext, habs']

/-- C8 witness. -/
theorem c8_missing_message_witness :
    verifyResource "pic.jpg" "" ["chapter1.xhtml", "cover.jpg"] "chapter1.xhtml" [] =
      [] ++ [mkMissing (resolveTarget "pic.jpg" "") "chapter1.xhtml"] :=
  (c8_missing_message "pic.jpg" "" ["chapter1.xhtml", "cover.jpg"] "chapter1.xhtml" []
    (by decide) (by decide)).1

/-- C10: the scheme check sees the raw reference string: http%3A//host/img.png
is not treated as external, decodes to http://host/img.png, resolves at the
archive root to http:/host/img.png, and is reported missing whenever that
resolved path is not an entry. -/
theorem c10_raw_scheme_check :
    isExternal "http%3A//host/img.png" = false ∧
    unquote "http%3A//host/img.png" = "http://host/img.png" ∧
    resolveTarget "http%3A//host/img.png" "" = "http:/host/img.png" ∧
    ∀ (all_files : List String) (context_file : String) (missing : List String),
      all_files.contains (resolveTarget "http%3A//host/img.png" "") = false →
      verifyResource "http%3A//host/img.png" "" all_files context_file missing =
        missing ++ [mkMissing "http:/host/img.png" context_file] := by
  refine ⟨by decide, by decide, by decide, ?_⟩
  intro all_files context_file missing habs
  have habs' : resolveTarget "http%3A//host/img.png" "" ∉ all_files := by simpa using habs
  rw [verifyResource_delta]
  unfold verifyDelta
  rw [if_neg (by decide), if_neg (by simpa using habs'),
    show resolveTarget "http%3A//host/img.png" "" = "http:/host/img.png" from by decide]

/-- C10 witness. -/
theorem c10_raw_scheme_check_witness :
    verifyResource "http%3A//host/img.png" "" [] "doc.xhtml" [] =
      [] ++ [mkMissing "http:/host/img.png" "doc.xhtml"] :=
  c10_raw_scheme_check.2.2.2 [] "doc.xhtml" [] (by decide)

/-- C9: during isolation a broken file whose name already sits in broken/ is
skipped and never moved, names already present are never overwritten (the
destination stays duplicate-free), every broken file is processed to exactly
one of skipped/failed/moved whatever any single move did, and the summary
still counts every broken file as broken. -/
theorem c9_isolation_safe (broken initialDest validList : List String)
    (moveFails : String → Bool) :
    (∀ n ∈ broken, n ∈ initialDest →
      n ∈ (isolateBrokenFiles broken initialDest moveFails).skipped) ∧
    (∀ n ∈ initialDest, n ∉ (isolateBrokenFiles broken initialDest moveFails).moved) ∧
    (initialDest.Nodup → (isolateBrokenFiles broken initialDest moveFails).dest.Nodup) ∧
    ((isolateBrokenFiles broken initialDest moveFails).skipped.length +
        (isolateBrokenFiles broken initialDest moveFails).failed.length +
        (isolateBrokenFiles broken initialDest moveFails).moved.length = broken.length) ∧
    ((processAfterClassify validList broken true initialDest moveFails).2.broken =
      broken.length) := by
  refine ⟨?_, ?_, ?_, ?_, rfl⟩
  · intro n hn hd
    exact iso_foldl_skip_mem moveFails broken ⟨initialDest, [], [], []⟩ n hn hd
  · intro n hd
    exact (iso_foldl_dest_not_moved moveFails broken ⟨initialDest, [], [], []⟩ n hd
      (by simp)).2
  · intro hnd
    exact iso_foldl_nodup moveFails broken ⟨initialDest, [], [], []⟩ hnd
  · rw [isolateBrokenFiles, iso_foldl_count]
    simp

/-- C9 witness: `a.epub` collides and is skipped, moving `b.epub` fails,
`c.epub` is moved; all three stay counted broken. -/
theorem c9_isolation_safe_witness :
    ("a.epub" ∈ (isolateBrokenFiles ["a.epub", "b.epub", "c.epub"] ["a.epub"]
      sampleMoveFails).skipped) ∧
    ("a.epub" ∉ (isolateBrokenFiles ["a.epub", "b.epub", "c.epub"] ["a.epub"]
      sampleMoveFails).moved) ∧
    ((isolateBrokenFiles ["a.epub", "b.epub", "c.epub"] ["a.epub"] sampleMoveFails).dest.Nodup) ∧
    ((processAfterClassify ["good.epub"] ["a.epub", "b.epub", "c.epub"] true ["a.epub"]
      sampleMoveFails).2.broken = 3) :=
  ⟨(c9_isolation_safe ["a.epub", "b.epub", "c.epub"] ["a.epub"] ["good.epub"]
      sampleMoveFails).1 "a.epub" (by decide) (by decide),
    (c9_isolation_safe ["a.epub", "b.epub", "c.epub"] ["a.epub"] ["good.epub"]
      sampleMoveFails).2.1 "a.epub" (by decide),
    (c9_isolation_safe ["a.epub", "b.epub", "c.epub"] ["a.epub"] ["good.epub"]
      sampleMoveFails).2.2.1 (by decide),
    (c9_isolation_safe ["a.epub", "b.epub", "c.epub"] ["a.epub"] ["good.epub"]
      sampleMoveFails).2.2.2.2⟩
